import Mathlib

/-!
Verification of the crawler/archiver in `archive.py` (NASA NeoWs crawl).

The Python module works on parsed JSON (nested dicts/lists/strings/numbers).
We embed JSON values as the inductive `Json`, Python dicts as association
lists `Dict := List (String × Json)` with first-match lookup, ordered
in-place update (`dset`) and key removal (`dpop`) mirroring Python dict
semantics on duplicate-free key lists.

In-place mutation of a dict that is aliased by a caller is made explicit by
returning the post-call value of the aliased argument (see
`simplifyObjectLookup`, whose second result component is the post-call state
of the `approaches_from_browse` argument — the browse page's fragments are
assigned into the deep copy *unscopied* and then mutated by
`sanitiseApproach`).  A Python exception escaping a function is modelled by
an `Option` result of `none`.
-/

namespace Archive

/-- A parsed JSON value, as the Python code receives it from `r.json()`.
Numbers are modelled as integers: every value the claims exercise is a
string, object, array or absent, so the numeric representation is inert. -/
inductive Json where
  | null
  | bool (b : Bool)
  | num (n : Int)
  | str (s : String)
  | arr (xs : List Json)
  | obj (fields : List (String × Json))

/-- Python `x is None` / the `isinstance(x, dict)`-style shape tests the
source performs, as a Boolean on the embedded values. -/
def Json.isNull : Json → Bool
  | .null => true
  | _ => false

/-- A Python dict holding JSON values: an association list, keys unique in
every value the source builds; all operations use the first occurrence. -/
abbrev Dict := List (String × Json)

/-- Python `d.get(k)`: first binding of `k`, or `None` when absent. -/
def dget (d : Dict) (k : String) : Option Json :=
  match d with
  | [] => none
  | (k1, v) :: rest => if k1 = k then some v else dget rest k

/-- Python `d.pop(k, None)`: the dict with the binding of `k` removed. -/
def dpop (d : Dict) (k : String) : Dict :=
  match d with
  | [] => []
  | (k1, v) :: rest => if k1 = k then dpop rest k else (k1, v) :: dpop rest k

/-- Python `d[k] = v` on a dict: replace the existing binding in place
(keeping its position), else append a new binding at the end. -/
def dset (d : Dict) (k : String) (v : Json) : Dict :=
  match d with
  | [] => [(k, v)]
  | (k1, v1) :: rest => if k1 = k then (k, v) :: rest else (k1, v1) :: dset rest k v

theorem dget_dset_self (d : Dict) (k : String) (v : Json) :
    dget (dset d k v) k = some v := by
  induction d with
  | nil => simp [dget, dset]
  | cons p rest ih =>
    obtain ⟨k1, v1⟩ := p
    by_cases h : k1 = k <;> simp [dget, dset, h, ih]

theorem dget_dset_ne (d : Dict) (k k1 : String) (v : Json) (hne : k1 ≠ k) :
    dget (dset d k1 v) k = dget d k := by
  induction d with
  | nil => simp [dget, dset, hne]
  | cons p rest ih =>
    obtain ⟨k2, v2⟩ := p
    by_cases h : k2 = k1
    · subst h
      simp [dget, dset, hne]
    · simp only [dset, if_neg h, dget, ih]

theorem dget_dpop (d : Dict) (k k1 : String) :
    dget (dpop d k1) k = if k = k1 then none else dget d k := by
  induction d with
  | nil => simp [dget, dpop]
  | cons p rest ih =>
    obtain ⟨k2, v2⟩ := p
    by_cases h2 : k2 = k1
    · subst h2
      by_cases hk : k = k2
      · subst hk
        simp [dpop, ih]
      · have hk2 : ¬k2 = k := fun h => hk h.symm
        simp [dpop, dget, hk, hk2, ih]
    · by_cases hk : k2 = k
      · subst hk
        simp [dpop, dget, h2, ih]
      · simp [dpop, dget, h2, hk, ih]

theorem dget_dpop_self (d : Dict) (k : String) : dget (dpop d k) k = none := by
  simp [dget_dpop]

theorem dget_dpop_ne (d : Dict) (k k1 : String) (hne : k ≠ k1) :
    dget (dpop d k1) k = dget d k := by
  simp [dget_dpop, hne]

theorem dset_eq_of_dget (d : Dict) (k : String) (v : Json)
    (h : dget d k = some v) : dset d k v = d := by
  induction d with
  | nil => simp [dget] at h
  | cons p rest ih =>
    obtain ⟨k1, v1⟩ := p
    by_cases hk : k1 = k
    · subst hk
      simp [dget] at h
      simp [dset, h]
    · simp [dget, hk] at h
      simp [dset, hk, ih h]

theorem dpop_eq_of_dget_none (d : Dict) (k : String)
    (h : dget d k = none) : dpop d k = d := by
  induction d with
  | nil => simp [dpop]
  | cons p rest ih =>
    obtain ⟨k1, v1⟩ := p
    by_cases hk : k1 = k
    · subst hk
      simp [dget] at h
    · simp [dget, hk] at h
      simp [dpop, hk, ih h]

theorem dpop_dpop_self (d : Dict) (k : String) :
    dpop (dpop d k) k = dpop d k := by
  apply dpop_eq_of_dget_none
  exact dget_dpop_self d k

/-- Python truthiness (`if not aid`, `x or y`) on the embedded JSON values:
`None`, `False`, `0`, `""`, `[]` and the empty dict are falsy. -/
def jsonTruthy : Json → Bool
  | .null => false
  | .bool b => b
  | .num n => n != 0
  | .str s => s != ""
  | .arr xs => !xs.isEmpty
  | .obj fs => !fs.isEmpty

/-- Python `str(x)` as used to build the DB key (`str(aid)`) and the lookup
URL (`url.format(id=asteroid_id)`).  Exact for the strings, integers, bools
and None the source can receive as ids; container reprs are abbreviated
since no id the pipeline derives is a container. -/
def pyStr : Json → String
  | .str s => s
  | .num n => toString n
  | .bool b => if b then "True" else "False"
  | .null => "None"
  | .arr _ => "[...]"
  | .obj _ => "{...}"

/-- First block of `_sanitise_approach` (archive.py:78-81): `miss =
approach.get("miss_distance"); if isinstance(miss, dict): miss.pop("lunar",
None); miss.pop("miles", None)`, performed in place. -/
def sanitiseMiss (approach : Dict) : Dict :=
  match dget approach "miss_distance" with
  | some (Json.obj miss) =>
      dset approach "miss_distance" (Json.obj (dpop (dpop miss "lunar") "miles"))
  | _ => approach

/-- Second block of `_sanitise_approach` (archive.py:83-86): `rel =
approach.get("relative_velocity"); if isinstance(rel, dict):
rel.pop("miles_per_hour", None); rel.pop("miles_per_hr", None)`, in
place. -/
def sanitiseRel (approach : Dict) : Dict :=
  match dget approach "relative_velocity" with
  | some (Json.obj rel) =>
      dset approach "relative_velocity"
        (Json.obj (dpop (dpop rel "miles_per_hour") "miles_per_hr"))
  | _ => approach

/-- Source `_sanitise_approach` (archive.py:76-86): remove non-metric fields
from one `close_approach_data` entry, in place — the two blocks run in
sequence on the same dict.  The returned dict is the post-mutation value of
the entry. -/
def sanitiseApproach (approach : Dict) : Dict :=
  sanitiseRel (sanitiseMiss approach)

/-- Python `d.get(k)` at the granularity the source tests it with `is not
None`: a stored JSON null is Python `None`, indistinguishable from an
absent key. -/
def getPy (d : Dict) (k : String) : Option Json :=
  match dget d k with
  | some v => if v.isNull then none else some v
  | none => none

/-- The expression `obj.get("estimated_diameter", {}).get("kilometers")`
of archive.py:91.  Result `some km?` is the Python value (`none` when the
kilometers entry is absent or null); result `none` is the `AttributeError`
raised when the `estimated_diameter` value is present but not a dict
(including JSON null, which parses to Python `None`). -/
def edKilometers (obj : Dict) : Option (Option Json) :=
  match dget obj "estimated_diameter" with
  | none => some none
  | some (Json.obj ed) => some (getPy ed "kilometers")
  | some _ => none

/-- Source `_simplify_estimated_diameter` (archive.py:89-95), in place on
`obj`: `km = obj.get("estimated_diameter", {}).get("kilometers"); if km is
not None: obj["estimated_diameter"] = {"kilometers": km} else:
obj.pop("estimated_diameter", None)`.  `none` models the uncaught
`AttributeError` of `edKilometers`. -/
def simplifyEstimatedDiameter (obj : Dict) : Option Dict :=
  (edKilometers obj).bind fun km? =>
  match km? with
  | some km => some (dset obj "estimated_diameter" (Json.obj [("kilometers", km)]))
  | none => some (dpop obj "estimated_diameter")

theorem edKilometers_eq_of_absent (obj : Dict)
    (h : dget obj "estimated_diameter" = none) :
    edKilometers obj = some none := by
  unfold edKilometers
  rw [h]

theorem edKilometers_eq_of_obj (obj : Dict) (ed : Dict)
    (h : dget obj "estimated_diameter" = some (Json.obj ed)) :
    edKilometers obj = some (getPy ed "kilometers") := by
  unfold edKilometers
  rw [h]

theorem edKilometers_eq_of_nonobj (obj : Dict) (v : Json)
    (h : dget obj "estimated_diameter" = some v)
    (hv : ∀ ed, v ≠ Json.obj ed) :
    edKilometers obj = none := by
  unfold edKilometers
  rw [h]
  cases v <;> first
    | rfl
    | exact absurd rfl (hv _)

theorem simplifyED_eq_pop (obj : Dict) (h : edKilometers obj = some none) :
    simplifyEstimatedDiameter obj = some (dpop obj "estimated_diameter") := by
  unfold simplifyEstimatedDiameter
  rw [h]
  exact rfl

theorem simplifyED_eq_set (obj : Dict) (km : Json)
    (h : edKilometers obj = some (some km)) :
    simplifyEstimatedDiameter obj
      = some (dset obj "estimated_diameter" (Json.obj [("kilometers", km)])) := by
  unfold simplifyEstimatedDiameter
  rw [h]
  exact rfl

theorem simplifyED_eq_raise (obj : Dict) (h : edKilometers obj = none) :
    simplifyEstimatedDiameter obj = none := by
  unfold simplifyEstimatedDiameter
  rw [h]
  exact rfl

/-- A JSON value as a Python list to iterate over: anything else makes the
`for approach in obj_copy["close_approach_data"]` loop (whose body calls
`.get` on each element) raise. -/
def asArr : Json → Option (List Json)
  | .arr xs => some xs
  | _ => none

/-- Each iterated element as a dict: a non-dict element makes
`approach.get("miss_distance")` inside `_sanitise_approach` raise. -/
def toDicts (xs : List Json) : Option (List Dict) :=
  xs.mapM (fun x => match x with | Json.obj d => some d | _ => none)

/-- Source `_simplify_object_lookup` (archive.py:98-114).  `objLookup` is
deep-copied, so the caller's detail record is never mutated; the
`approaches_from_browse` argument, however, is assigned into the copy
WITHOUT copying (`obj_copy["close_approach_data"] = approaches_from_browse
or []`) and each of its entries is then mutated by `_sanitise_approach`.
The second component of the result is therefore the post-call value of the
`approachesFromBrowse` argument (unchanged only when it was falsy, because
then a fresh empty list is used instead).  `none` models an uncaught
exception at any of the three points Python can raise: iterating a truthy
non-list, sanitising a non-dict element, or
`_simplify_estimated_diameter`. -/
def simplifyObjectLookup (objLookup : Dict) (approachesFromBrowse : Json) :
    Option (Dict × Json) :=
  (asArr (if jsonTruthy approachesFromBrowse then approachesFromBrowse
          else Json.arr [])).bind fun xs =>
  (toDicts xs).bind fun frags =>
  (simplifyEstimatedDiameter (dset objLookup "close_approach_data"
      (Json.arr ((frags.map sanitiseApproach).map Json.obj)))).bind fun oc2 =>
  some (dpop oc2 "links",
    if jsonTruthy approachesFromBrowse
    then Json.arr ((frags.map sanitiseApproach).map Json.obj)
    else approachesFromBrowse)

/-- One row of the `asteroids` table (`id TEXT PRIMARY KEY, data TEXT NOT
NULL, inserted_at TEXT NOT NULL`).  `data` holds the record serialized by
`json.dumps`; since that serialization is injective on the dicts the
pipeline builds, the row stores the dict itself. -/
structure DBRow where
  id : String
  data : Json
  insertedAt : String

/-- Does the table already contain a row with primary key `key`?  This is
what decides `INSERT OR IGNORE` on the `id TEXT PRIMARY KEY` column. -/
def dbHas (db : List DBRow) (key : String) : Bool :=
  match db with
  | [] => false
  | row :: rest => if row.id = key then true else dbHas rest key

/-- Source archive.py:153: `aid = obj.get("id") or obj.get("neo_reference_id")`. -/
def derivedId (obj : Dict) : Json :=
  let idVal := (dget obj "id").getD Json.null
  if jsonTruthy idVal then idVal else (dget obj "neo_reference_id").getD Json.null

/-- Source `_insert_asteroid` (archive.py:148-165): `INSERT OR IGNORE` of the
simplified object keyed by `str(aid)`; returns 1 if a row was inserted and 0
if it was ignored or the id was falsy.  `now` is the
`datetime.utcnow().isoformat()` timestamp. -/
def insertAsteroid (db : List DBRow) (obj : Dict) (now : String) :
    List DBRow × Nat :=
  let aid := derivedId obj
  if jsonTruthy aid then
    let key := pyStr aid
    if dbHas db key then (db, 0)
    else (db ++ [⟨key, Json.obj obj, now⟩], 1)
  else (db, 0)

/-- Constant archive.py:23: number of attempts for HTTP requests. -/
def RETRIES : Nat := 3

/-- Constant archive.py:24: backoff multiplier in seconds (1.0). -/
def BACKOFF_FACTOR : ℚ := 1

/-- Constant archive.py:25: post-success rate-limit sleep in seconds (0.12). -/
def RATE_LIMIT_SLEEP : ℚ := 12 / 100

/-- Constant archive.py:21: fixed page size of a browse request. -/
def PAGE_SIZE : Nat := 20

/-- Constant archive.py:22: default start page of a crawl. -/
def START_PAGE : Int := 950

/-- The body of the `for attempt in range(1, attempts + 1)` loop of
`_request_json_with_retries` (archive.py:41-54).  `req n` is the outcome of
the single-attempt `_request_json` on attempt number `n` (`none` = the
attempt raised).  `rem` is the number of attempts remaining after the
current one (so the loop starts at `retryGo req B R 1 (attempts - 1)`).
The result is (value returned if any, number of attempts performed, the
sleeps performed in order: `B * attempt` seconds after each non-final
failed attempt, `R` seconds after a success). -/
def retryGo (req : Nat → Option α) (B R : ℚ) :
    (attempt : Nat) → (rem : Nat) → Option α × Nat × List ℚ
  | attempt, 0 =>
    match req attempt with
    | some v => (some v, 1, [R])
    | none => (none, 1, [])
  | attempt, rem + 1 =>
    match req attempt with
    | some v => (some v, 1, [R])
    | none =>
      let r := retryGo req B R (attempt + 1) rem
      (r.1, r.2.1 + 1, B * (attempt : ℚ) :: r.2.2)

/-- Source `_request_json_with_retries` (archive.py:35-58): up to `attempts`
attempts; on failure with attempts remaining sleep `BACKOFF_FACTOR *
attempt` and retry, on the final attempt re-raise; on success sleep
`RATE_LIMIT_SLEEP` and return.  When `attempts = 0` the loop body never
runs and the function raises without performing any attempt. -/
def requestJsonWithRetries (req : Nat → Option α) (B R : ℚ)
    (attempts : Nat) : Option α × Nat × List ℚ :=
  if attempts = 0 then (none, 0, [])
  else retryGo req B R 1 (attempts - 1)

/-- A successfully fetched and parsed browse page, at the granularity the
orchestrator reads it: `page_info = first.get("page") or {};
total_pages = page_info.get("total_pages")` and `objects =
resp.get("near_earth_objects") or []`.  `totalPages = none` models the
provider omitting `total_pages` (or the `page` metadata). -/
structure BrowsePage where
  totalPages : Option Int
  objects : List Dict

/-- Source archive.py:211: `neo_id = obj.get("neo_reference_id") or
obj.get("id")` for a summary record of a browse page. -/
def neoIdOf (obj : Dict) : Json :=
  let refVal := (dget obj "neo_reference_id").getD Json.null
  if jsonTruthy refVal then refVal else (dget obj "id").getD Json.null

/-- One iteration of the per-record loop of `run` (archive.py:210-222) for a
single summary object: skip records with a falsy `neo_id` (`continue`),
skip records whose detail lookup raises after retries (`except: print;
continue`), otherwise normalize and insert, adding the insert result to
`inserted_this_page`.  The result is the updated (db, inserted count);
`none` models the uncaught exception when `_simplify_object_lookup`
raises. -/
def processOne (lookup : String → Option Dict) (now : String)
    (db : List DBRow) (acc : Nat) (obj : Dict) : Option (List DBRow × Nat) :=
  if jsonTruthy (neoIdOf obj) then
    match lookup (pyStr (neoIdOf obj)) with
    | none => some (db, acc)
    | some detail =>
      match simplifyObjectLookup detail ((dget obj "close_approach_data").getD (Json.arr [])) with
      | none => none
      | some (simplified, _) =>
        let r := insertAsteroid db simplified now
        some (r.1, acc + r.2)
  else some (db, acc)

/-- The per-record loop of `run` over one page's `near_earth_objects`. -/
def processObjects (lookup : String → Option Dict) (now : String) :
    List Dict → List DBRow → Nat → Option (List DBRow × Nat)
  | [], db, acc => some (db, acc)
  | obj :: rest, db, acc =>
    match processOne lookup now db acc obj with
    | none => none
    | some (db2, acc2) => processObjects lookup now rest db2 acc2

/-- Why the `while True` loop of `run` stopped. -/
inductive StopReason where
  | firstFetchFailed
  | pageFetchFailed (page : Int)
  | noObjects (page : Int)
  | reachedTotalPages (page : Int)
  | normalizeRaised (page : Int)
  | fuelExhausted

/-- Observable outcome of a crawl: the pages requested over HTTP in order
(each `_neo_browse` call), the per-page `(page, inserted_this_page)`
progress reports in order, the final DB, and why the crawl stopped. -/
structure CrawlResult where
  fetched : List Int
  counts : List (Int × Nat)
  db : List DBRow
  stop : StopReason

/-- The `while True` loop of `run` (archive.py:197-236).  `totalPages` is
the loop-invariant value computed before the loop (provider value, or the
start page as fallback).  The stop test archive.py:233 is `total_pages and
isinstance(total_pages, int) and page >= total_pages`; on an int that is
`totalPages ≠ 0 ∧ page ≥ totalPages`.  `fuel` bounds the iterations of the
unbounded Python loop. -/
def crawlLoop (browse : Int → Option BrowsePage) (lookup : String → Option Dict)
    (now : String) (totalPages : Int) :
    (fuel : Nat) → (page : Int) → (db : List DBRow) → CrawlResult
  | 0, _, db => ⟨[], [], db, .fuelExhausted⟩
  | fuel + 1, page, db =>
    match browse page with
    | none => ⟨[page], [], db, .pageFetchFailed page⟩
    | some resp =>
      if resp.objects.isEmpty then ⟨[page], [], db, .noObjects page⟩
      else
        match processObjects lookup now resp.objects db 0 with
        | none => ⟨[page], [], db, .normalizeRaised page⟩
        | some (db2, n) =>
          if totalPages ≠ 0 ∧ page ≥ totalPages then
            ⟨[page], [(page, n)], db2, .reachedTotalPages page⟩
          else
            let r := crawlLoop browse lookup now totalPages fuel (page + 1) db2
            ⟨page :: r.fetched, (page, n) :: r.counts, r.db, r.stop⟩

/-- Source `run` (archive.py:168-238): fetch the start page once to read
`total_pages` (archive.py:184), fall back to `total_pages = page` when the
metadata omits it (archive.py:192-194), then enter the `while True` loop —
whose first iteration fetches the same start page again.  `browse p` is the
outcome of `_neo_browse(p)` (`none` = raised after retries), `lookup` the
outcome of `_neo_lookup`. -/
def runCrawl (browse : Int → Option BrowsePage) (lookup : String → Option Dict)
    (now : String) (startPage : Int) (fuel : Nat) : CrawlResult :=
  match browse startPage with
  | none => ⟨[startPage], [], [], .firstFetchFailed⟩
  | some first =>
    let totalPages := first.totalPages.getD startPage
    let r := crawlLoop browse lookup now totalPages fuel startPage []
    ⟨startPage :: r.fetched, r.counts, r.db, r.stop⟩

theorem retryGo_all_fail {α : Type} (req : Nat → Option α) (B R : ℚ)
    (hfail : ∀ i, req i = none) (rem attempt : Nat) :
    retryGo req B R attempt rem
      = (none, rem + 1,
         (List.range rem).map (fun i => B * ((attempt + i : ℕ) : ℚ))) := by
  induction rem generalizing attempt with
  | zero => simp [retryGo, hfail]
  | succ rem ih =>
    have hl : (List.range (rem + 1)).map (fun i => B * ((attempt + i : ℕ) : ℚ))
        = B * ((attempt : ℕ) : ℚ)
            :: (List.range rem).map (fun i => B * ((attempt + 1 + i : ℕ) : ℚ)) := by
      rw [List.range_succ_eq_map, List.map_cons, List.map_map]
      simp only [List.cons.injEq]
      refine ⟨by norm_num, ?_⟩
      apply List.map_congr_left
      intro i _
      simp only [Function.comp_apply, Nat.succ_eq_add_one]
      congr 1
      push_cast
      ring
    simp only [retryGo, hfail, ih (attempt + 1), hl]

theorem backoff_gauss (B : ℚ) (n : Nat) :
    (((List.range n).map (fun i => B * ((1 + i : ℕ) : ℚ))).sum)
      = B * ((n * (n + 1) : ℕ) : ℚ) / 2 := by
  induction n with
  | zero => simp
  | succ n ih =>
    rw [List.range_succ, List.map_append, List.sum_append, ih]
    simp only [List.map_cons, List.map_nil, List.sum_cons, List.sum_nil, add_zero]
    push_cast
    ring

/-- C2. A fetch whose underlying request fails on every attempt performs
exactly `attempts` attempts (default `RETRIES = 3`), sleeps
`BACKOFF_FACTOR * attemptNumber` seconds after each non-final failed
attempt (attempt 1 → 1×, attempt 2 → 2×, …), propagates the failure to the
caller on the final attempt instead of retrying, and its total sleep time
is the sum of the configured backoffs,
`B * (attempts - 1) * attempts / 2`. -/
theorem retry_exhaustion_spec {α : Type} (req : Nat → Option α) (B R : ℚ)
    (attempts : Nat) (h1 : 1 ≤ attempts) (hfail : ∀ i, req i = none) :
    requestJsonWithRetries req B R attempts
      = (none, attempts,
         (List.range (attempts - 1)).map (fun i => B * ((1 + i : ℕ) : ℚ)))
    ∧ ((List.range (attempts - 1)).map (fun i => B * ((1 + i : ℕ) : ℚ))).sum
      = B * (((attempts - 1) * attempts : ℕ) : ℚ) / 2 := by
  constructor
  · have h0 : ¬attempts = 0 := by omega
    rw [requestJsonWithRetries, if_neg h0,
      retryGo_all_fail req B R hfail (attempts - 1) 1]
    have : attempts - 1 + 1 = attempts := by omega
    rw [this]
  · rw [backoff_gauss]
    have : attempts - 1 + 1 = attempts := by omega
    rw [this]

/-- C2 witness: with the source defaults (`RETRIES = 3`, `BACKOFF_FACTOR =
1.0`) an always-failing fetch performs 3 attempts, sleeps 1 s then 2 s, and
returns no value; total sleep 3 s. -/
theorem retry_exhaustion_spec_witness :
    requestJsonWithRetries (fun _ => (none : Option Unit))
        BACKOFF_FACTOR RATE_LIMIT_SLEEP RETRIES
      = (none, RETRIES, [1, 2])
    ∧ ([(1 : ℚ), 2]).sum = 3 := by
  have h := retry_exhaustion_spec (fun _ => (none : Option Unit))
    BACKOFF_FACTOR RATE_LIMIT_SLEEP RETRIES (by norm_num [RETRIES])
    (fun i => rfl)
  have hlist : (List.range (RETRIES - 1)).map
      (fun i => BACKOFF_FACTOR * ((1 + i : ℕ) : ℚ)) = [1, 2] := by
    norm_num [RETRIES, BACKOFF_FACTOR, List.range_succ]
  refine ⟨?_, by norm_num⟩
  rw [h.1, hlist]

theorem dbHas_eq_false (db : List DBRow) (key : String)
    (h : ∀ row ∈ db, row.id ≠ key) : dbHas db key = false := by
  induction db with
  | nil => rfl
  | cons row rest ih =>
    have h1 := h row (List.mem_cons_self row rest)
    simp [dbHas, h1, ih (fun r hr => h r (List.mem_cons_of_mem _ hr))]

theorem dbHas_append_self (db : List DBRow) (row : DBRow) :
    dbHas (db ++ [row]) row.id = true := by
  induction db with
  | nil => simp [dbHas]
  | cons r rest ih => by_cases h : r.id = row.id <;> simp [dbHas, h, ih]

/-- C1. Inserting a normalized record whose derived id (the `id` field, or
`neo_reference_id` as fallback) is truthy into a store not yet holding that
key stores exactly one new row, the first insert returning 1 (newly
inserted) and the second 0 with the store unchanged — a duplicate insert is
a no-op, not an error; and when the derived id is absent or falsy (e.g. the
empty string), the insert stores nothing and returns 0. -/
theorem insert_idempotent_spec (db : List DBRow) (obj : Dict) (t1 t2 : String) :
    (jsonTruthy (derivedId obj) = true →
      (∀ row ∈ db, row.id ≠ pyStr (derivedId obj)) →
      insertAsteroid db obj t1
        = (db ++ [⟨pyStr (derivedId obj), Json.obj obj, t1⟩], 1)
      ∧ insertAsteroid (db ++ [⟨pyStr (derivedId obj), Json.obj obj, t1⟩]) obj t2
        = (db ++ [⟨pyStr (derivedId obj), Json.obj obj, t1⟩], 0))
    ∧ (jsonTruthy (derivedId obj) = false →
      insertAsteroid db obj t1 = (db, 0)) := by
  constructor
  · intro ht hfresh
    have hfalse : dbHas db (pyStr (derivedId obj)) = false :=
      dbHas_eq_false _ _ hfresh
    constructor
    · simp [insertAsteroid, ht, hfalse]
    · have hhit := dbHas_append_self db
        ⟨pyStr (derivedId obj), Json.obj obj, t1⟩
      simp [insertAsteroid, ht, hhit]
  · intro hf
    simp [insertAsteroid, hf]

/-- C1 witness: a record with id "42" inserted twice into an empty store
yields one row and results 1 then 0; a record with empty id is a no-op. -/
theorem insert_idempotent_spec_witness :
    (insertAsteroid [] [("id", Json.str "42")] "t1"
        = ([⟨"42", Json.obj [("id", Json.str "42")], "t1"⟩], 1)
      ∧ insertAsteroid [⟨"42", Json.obj [("id", Json.str "42")], "t1"⟩]
          [("id", Json.str "42")] "t2"
        = ([⟨"42", Json.obj [("id", Json.str "42")], "t1"⟩], 0))
    ∧ insertAsteroid [] [("id", Json.str "")] "t1" = ([], 0) := by
  constructor
  · exact (insert_idempotent_spec [] [("id", Json.str "42")] "t1" "t2").1
      (by rfl) (by simp)
  · exact (insert_idempotent_spec [] [("id", Json.str "")] "t1" "t1").2 (by rfl)

theorem sanitiseMiss_get_miss (approach : Dict) :
    dget (sanitiseMiss approach) "miss_distance"
      = match dget approach "miss_distance" with
        | some (Json.obj miss) =>
            some (Json.obj (dpop (dpop miss "lunar") "miles"))
        | other => other := by
  unfold sanitiseMiss
  rcases hm : dget approach "miss_distance" with _ | v
  · simp [hm]
  · cases v <;> simp [hm, dget_dset_self]

theorem sanitiseMiss_get_ne (approach : Dict) (k : String)
    (hk : k ≠ "miss_distance") :
    dget (sanitiseMiss approach) k = dget approach k := by
  unfold sanitiseMiss
  rcases hm : dget approach "miss_distance" with _ | v
  · rfl
  · cases v <;> simp [dget_dset_ne _ _ _ _ (Ne.symm hk)]

theorem sanitiseRel_get_rel (approach : Dict) :
    dget (sanitiseRel approach) "relative_velocity"
      = match dget approach "relative_velocity" with
        | some (Json.obj rel) =>
            some (Json.obj (dpop (dpop rel "miles_per_hour") "miles_per_hr"))
        | other => other := by
  unfold sanitiseRel
  rcases hr : dget approach "relative_velocity" with _ | v
  · simp [hr]
  · cases v <;> simp [hr, dget_dset_self]

theorem sanitiseRel_get_ne (approach : Dict) (k : String)
    (hk : k ≠ "relative_velocity") :
    dget (sanitiseRel approach) k = dget approach k := by
  unfold sanitiseRel
  rcases hr : dget approach "relative_velocity" with _ | v
  · rfl
  · cases v <;> simp [dget_dset_ne _ _ _ _ (Ne.symm hk)]

/-- C7 counterexample: sanitization is a blocklist, not an allowlist.  On
an approach entry whose miss-distance block is
`miss_distance = (kilometers "100", astronomical "0.000672")` — as the
provider's real entries are shaped — the sanitized miss-distance block
still contains the non-metric `astronomical` entry, so the block does NOT
keep only the kilometers entry. -/
theorem sanitise_keeps_astronomical :
    dget (sanitiseApproach
        [("miss_distance", Json.obj
          [("kilometers", Json.str "100"), ("astronomical", Json.str "0.000672")])])
      "miss_distance"
    = some (Json.obj
        [("kilometers", Json.str "100"), ("astronomical", Json.str "0.000672")]) := rfl

/-- C7 amended: for every approach entry processed by normalization, the
miss-distance block drops exactly its `lunar` and `miles` entries (keeping
`kilometers` and every other entry unchanged), and the relative-velocity
block drops exactly its `miles_per_hour` and `miles_per_hr` entries; in
particular an entry with miss_distance (kilometers "100", lunar "0.26",
miles "62") normalizes to miss_distance (kilometers "100"). -/
theorem sanitise_fields_spec (approach : Dict) :
    (∀ miss, dget approach "miss_distance" = some (Json.obj miss) →
      ∃ m2, dget (sanitiseApproach approach) "miss_distance"
          = some (Json.obj m2)
        ∧ ∀ k, dget m2 k
            = if k = "lunar" ∨ k = "miles" then none else dget miss k)
    ∧ (∀ rel, dget approach "relative_velocity" = some (Json.obj rel) →
      ∃ r2, dget (sanitiseApproach approach) "relative_velocity"
          = some (Json.obj r2)
        ∧ ∀ k, dget r2 k
            = if k = "miles_per_hour" ∨ k = "miles_per_hr" then none
              else dget rel k) := by
  constructor
  · intro miss hm
    refine ⟨dpop (dpop miss "lunar") "miles", ?_, ?_⟩
    · rw [sanitiseApproach, sanitiseRel_get_ne _ _ (by decide),
        sanitiseMiss_get_miss, hm]
    · intro k
      rw [dget_dpop, dget_dpop]
      by_cases hl : k = "lunar" <;> by_cases hm2 : k = "miles" <;>
        simp [hl, hm2]
  · intro rel hr
    refine ⟨dpop (dpop rel "miles_per_hour") "miles_per_hr", ?_, ?_⟩
    · rw [sanitiseApproach, sanitiseRel_get_rel,
        sanitiseMiss_get_ne _ _ (by decide), hr]
    · intro k
      rw [dget_dpop, dget_dpop]
      by_cases h1 : k = "miles_per_hour" <;> by_cases h2 : k = "miles_per_hr" <;>
        simp [h1, h2]

/-- C7 witness: the spec's concrete sanitization example, obtained from the
amended theorem at the entry with miss_distance (kilometers "100", lunar
"0.26", miles "62"), together with the full concrete result. -/
theorem sanitise_fields_spec_witness :
    (∃ m2, dget (sanitiseApproach
        [("miss_distance", Json.obj [("kilometers", Json.str "100"),
          ("lunar", Json.str "0.26"), ("miles", Json.str "62")])])
        "miss_distance" = some (Json.obj m2)
      ∧ ∀ k, dget m2 k
          = if k = "lunar" ∨ k = "miles" then none
            else dget [("kilometers", Json.str "100"),
              ("lunar", Json.str "0.26"), ("miles", Json.str "62")] k)
    ∧ sanitiseApproach
        [("miss_distance", Json.obj [("kilometers", Json.str "100"),
          ("lunar", Json.str "0.26"), ("miles", Json.str "62")])]
      = [("miss_distance", Json.obj [("kilometers", Json.str "100")])] := by
  constructor
  · exact (sanitise_fields_spec
      [("miss_distance", Json.obj [("kilometers", Json.str "100"),
        ("lunar", Json.str "0.26"), ("miles", Json.str "62")])]).1
      [("kilometers", Json.str "100"),
        ("lunar", Json.str "0.26"), ("miles", Json.str "62")] rfl
  · rfl

theorem simplifyObjectLookup_inv (d : Dict) (a : Json) (r : Dict) (a2 : Json)
    (h : simplifyObjectLookup d a = some (r, a2)) :
    ∃ xs frags oc2,
      asArr (if jsonTruthy a then a else Json.arr []) = some xs
      ∧ toDicts xs = some frags
      ∧ simplifyEstimatedDiameter
          (dset d "close_approach_data"
            (Json.arr ((frags.map sanitiseApproach).map Json.obj))) = some oc2
      ∧ r = dpop oc2 "links"
      ∧ a2 = (if jsonTruthy a
              then Json.arr ((frags.map sanitiseApproach).map Json.obj)
              else a) := by
  rw [simplifyObjectLookup] at h
  simp only [Option.bind_eq_some, Option.some.injEq, Prod.mk.injEq] at h
  obtain ⟨xs, hxs, frags, hfrags, oc2, hoc2, hr, ha2⟩ := h
  exact ⟨xs, frags, oc2, hxs, hfrags, hoc2, hr.symm, ha2.symm⟩

theorem simplifyED_get_ne (obj oc2 : Dict) (k : String)
    (h : simplifyEstimatedDiameter obj = some oc2)
    (hk : k ≠ "estimated_diameter") :
    dget oc2 k = dget obj k := by
  rcases hek : edKilometers obj with _ | km?
  · rw [simplifyED_eq_raise obj hek] at h
    exact absurd h (by simp)
  · rcases km? with _ | km
    · rw [simplifyED_eq_pop obj hek] at h
      injection h with h
      subst h
      exact dget_dpop_ne _ _ _ hk
    · rw [simplifyED_eq_set obj km hek] at h
      injection h with h
      subst h
      exact dget_dset_ne _ _ _ _ (Ne.symm hk)

theorem simplify_result_get_ne (d : Dict) (a : Json) (r : Dict) (a2 : Json)
    (h : simplifyObjectLookup d a = some (r, a2)) (k : String)
    (hl : k ≠ "links") (hc : k ≠ "close_approach_data")
    (he : k ≠ "estimated_diameter") :
    dget r k = dget d k := by
  obtain ⟨xs, frags, oc2, hxs, hfrags, hoc2, hr, ha2⟩ :=
    simplifyObjectLookup_inv d a r a2 h
  subst hr
  rw [dget_dpop_ne _ _ _ hl]
  rw [simplifyED_get_ne _ _ _ hoc2 he]
  exact dget_dset_ne _ _ _ _ (Ne.symm hc)

/-- C9 counterexample: a detail record whose `estimated_diameter` value is
present but not a dict LACKS a kilometers diameter block, yet normalization
does not yield a record with the diameter field omitted — it raises
(`.get` on a non-dict is an uncaught `AttributeError`), modelled as
`none`. -/
theorem diameter_nonobject_raises :
    simplifyObjectLookup
      [("id", Json.str "1"), ("estimated_diameter", Json.str "big")]
      (Json.arr []) = none := rfl

/-- C9 amended: when normalization returns a record: a detail record whose
`estimated_diameter` entry is absent, or is an object whose kilometers
entry is absent (or null, which Python cannot distinguish), yields a record
with no `estimated_diameter` field at all; when the kilometers entry is
present the diameter estimate is restricted to exactly that block.  A
detail record whose `estimated_diameter` value is present but not an
object makes normalization raise instead of returning a record. -/
theorem diameter_omission_spec (d : Dict) (a : Json) :
    (∀ r a2, simplifyObjectLookup d a = some (r, a2) →
      (dget d "estimated_diameter" = none → dget r "estimated_diameter" = none)
      ∧ (∀ ed, dget d "estimated_diameter" = some (Json.obj ed) →
          getPy ed "kilometers" = none → dget r "estimated_diameter" = none)
      ∧ (∀ ed km, dget d "estimated_diameter" = some (Json.obj ed) →
          getPy ed "kilometers" = some km →
          dget r "estimated_diameter" = some (Json.obj [("kilometers", km)])))
    ∧ (∀ v, dget d "estimated_diameter" = some v → (∀ ed, v ≠ Json.obj ed) →
        simplifyObjectLookup d a = none) := by
  have hcadne : ("close_approach_data" : String) ≠ "estimated_diameter" := by decide
  have hedlinks : ("estimated_diameter" : String) ≠ "links" := by decide
  constructor
  · intro r a2 h
    obtain ⟨xs, frags, oc2, hxs, hfrags, hoc2, hr, ha2⟩ :=
      simplifyObjectLookup_inv d a r a2 h
    subst hr
    have hobjget : dget (dset d "close_approach_data"
        (Json.arr ((frags.map sanitiseApproach).map Json.obj)))
        "estimated_diameter" = dget d "estimated_diameter" :=
      dget_dset_ne _ _ _ _ hcadne
    refine ⟨?_, ?_, ?_⟩
    · intro habs
      rw [dget_dpop_ne _ _ _ hedlinks]
      have hek := edKilometers_eq_of_absent _ (hobjget.trans habs)
      rw [simplifyED_eq_pop _ hek] at hoc2
      injection hoc2 with hoc2
      rw [hoc2.symm]
      exact dget_dpop_self _ _
    · intro ed hed hkm
      rw [dget_dpop_ne _ _ _ hedlinks]
      have hek := edKilometers_eq_of_obj _ ed (hobjget.trans hed)
      rw [hkm] at hek
      rw [simplifyED_eq_pop _ hek] at hoc2
      injection hoc2 with hoc2
      rw [hoc2.symm]
      exact dget_dpop_self _ _
    · intro ed km hed hkm
      rw [dget_dpop_ne _ _ _ hedlinks]
      have hek := edKilometers_eq_of_obj _ ed (hobjget.trans hed)
      rw [hkm] at hek
      rw [simplifyED_eq_set _ km hek] at hoc2
      injection hoc2 with hoc2
      rw [hoc2.symm]
      exact dget_dset_self _ _ _
  · intro v hv hnonobj
    rcases hx : asArr (if jsonTruthy a then a else Json.arr []) with _ | xs
    · rw [simplifyObjectLookup, hx]
      exact rfl
    · rcases htd : toDicts xs with _ | frags
      · rw [simplifyObjectLookup, hx]
        simp only [Option.some_bind]
        rw [htd]
        exact rfl
      · rw [simplifyObjectLookup, hx]
        simp only [Option.some_bind]
        rw [htd]
        simp only [Option.some_bind]
        have hobjget : dget (dset d "close_approach_data"
            (Json.arr ((frags.map sanitiseApproach).map Json.obj)))
            "estimated_diameter" = some v :=
          (dget_dset_ne _ _ _ _ hcadne).trans hv
        rw [simplifyED_eq_raise _ (edKilometers_eq_of_nonobj _ v hobjget hnonobj)]
        exact rfl

/-- C9 witness: a record with estimated_diameter (kilometers 5, meters
5000) normalizes with the diameter restricted to exactly the kilometers
block, and a record with no estimated_diameter entry normalizes with the
field omitted entirely. -/
theorem diameter_omission_spec_witness :
    dget [("id", Json.str "1"),
        ("estimated_diameter", Json.obj [("kilometers", Json.num 5)]),
        ("close_approach_data", Json.arr [])] "estimated_diameter"
      = some (Json.obj [("kilometers", Json.num 5)])
    ∧ dget [("id", Json.str "2"), ("close_approach_data", Json.arr [])]
        "estimated_diameter" = none := by
  constructor
  · exact ((diameter_omission_spec [("id", Json.str "1"),
      ("estimated_diameter",
        Json.obj [("kilometers", Json.num 5), ("meters", Json.num 5000)])]
      (Json.arr [])).1 _ _ rfl).2.2
      [("kilometers", Json.num 5), ("meters", Json.num 5000)] (Json.num 5) rfl rfl
  · exact ((diameter_omission_spec [("id", Json.str "2")]
      (Json.arr [])).1 _ _ rfl).1 rfl

theorem toDicts_map_obj (l : List Dict) : toDicts (l.map Json.obj) = some l := by
  induction l with
  | nil => rfl
  | cons x rest ih =>
    unfold toDicts at ih ⊢
    simp only [List.map_cons, List.mapM_cons, ih]
    rfl

/-- C4 counterexample: normalize does NOT leave the approach-fragments
sequence unchanged.  Passing the detail (id "1") and a single fragment
whose miss-distance block holds kilometers and lunar entries, the call
succeeds and the post-call value of the fragments argument — returned as
the second component, because the source assigns the caller's list into
the deep copy without copying it and then mutates its entries in place —
has lost the lunar entry, so it differs from the value passed in. -/
theorem normalize_mutates_fragments :
    simplifyObjectLookup [("id", Json.str "1")]
      (Json.arr [Json.obj [("miss_distance",
        Json.obj [("kilometers", Json.str "100"), ("lunar", Json.str "0.26")])]])
    = some ([("id", Json.str "1"),
        ("close_approach_data", Json.arr [Json.obj [("miss_distance",
          Json.obj [("kilometers", Json.str "100")])]])],
        Json.arr [Json.obj [("miss_distance",
          Json.obj [("kilometers", Json.str "100")])]])
    ∧ Json.arr [Json.obj [("miss_distance",
        Json.obj [("kilometers", Json.str "100")])]]
      ≠ Json.arr [Json.obj [("miss_distance",
        Json.obj [("kilometers", Json.str "100"), ("lunar", Json.str "0.26")])]] := by
  refine ⟨rfl, ?_⟩
  simp

/-- C4 amended: normalize performs no I/O and is deterministic, and the
detail record is protected by the deep copy — every field of it other than
the three keys the transform rewrites (`close_approach_data`,
`estimated_diameter`, `links`) is returned unchanged — but the page's
approach-fragments sequence is NOT left unchanged: its post-call value is
the sequence of sanitized fragments (each fragment mutated in place by
`_sanitise_approach`). -/
theorem normalize_frame_spec (d : Dict) (frags : List Dict) (r : Dict) (a2 : Json)
    (h : simplifyObjectLookup d (Json.arr (frags.map Json.obj)) = some (r, a2)) :
    a2 = Json.arr ((frags.map sanitiseApproach).map Json.obj)
    ∧ (∀ k, k ≠ "close_approach_data" → k ≠ "estimated_diameter" → k ≠ "links" →
        dget r k = dget d k) := by
  refine ⟨?_, fun k hc he hl => simplify_result_get_ne d _ r a2 h k hl hc he⟩
  obtain ⟨xs, frags2, oc2, hxs, hfrags, hoc2, hr, ha2⟩ :=
    simplifyObjectLookup_inv d _ r a2 h
  by_cases hne : frags = []
  · subst hne
    simp only [List.map_nil] at ha2 ⊢
    rw [ha2]
    rfl
  · have ht : jsonTruthy (Json.arr (frags.map Json.obj)) = true := by
      simp [jsonTruthy, List.isEmpty_eq_true, hne]
    rw [if_pos ht] at hxs ha2
    have hxs2 : xs = frags.map Json.obj := by
      have : some (frags.map Json.obj) = some xs := hxs
      injection this with h2
      exact h2.symm
    rw [hxs2, toDicts_map_obj] at hfrags
    injection hfrags with hfrags
    rw [ha2, hfrags.symm]

/-- C4 witness: at the detail (id "1") and the fragment with kilometers and
lunar miss distances, the frame part of the amended theorem applies: the
`id` field of the normalized record equals the `id` field of the detail. -/
theorem normalize_frame_spec_witness :
    dget [("id", Json.str "1"),
        ("close_approach_data", Json.arr [Json.obj [("miss_distance",
          Json.obj [("kilometers", Json.str "100")])]])] "id"
      = dget [("id", Json.str "1")] "id" := by
  exact (normalize_frame_spec [("id", Json.str "1")]
      [[("miss_distance",
        Json.obj [("kilometers", Json.str "100"), ("lunar", Json.str "0.26")])]]
      _ _ rfl).2 "id" (by decide) (by decide) (by decide)

theorem getPy_some (d : Dict) (k : String) (v : Json) (h : getPy d k = some v) :
    v.isNull = false := by
  unfold getPy at h
  rcases hd : dget d k with _ | v1 <;> rw [hd] at h
  · exact absurd h (by simp)
  · have h2 : (if v1.isNull then none else some v1) = some v := h
    by_cases hn : v1.isNull
    · rw [if_pos hn] at h2
      exact absurd h2 (by simp)
    · rw [if_neg hn] at h2
      injection h2 with h2
      subst h2
      simp only [Bool.not_eq_true] at hn
      exact hn

theorem edKilometers_some_not_null (obj : Dict) (km : Json)
    (h : edKilometers obj = some (some km)) : km.isNull = false := by
  unfold edKilometers at h
  rcases hd : dget obj "estimated_diameter" with _ | v <;> rw [hd] at h
  · exact absurd h (by simp)
  · cases v with
    | obj ed =>
      have h2 : some (getPy ed "kilometers") = some (some km) := h
      injection h2 with h2
      exact getPy_some ed "kilometers" km h2
    | null => exact absurd h (by simp)
    | bool b => exact absurd h (by simp)
    | num n => exact absurd h (by simp)
    | str s => exact absurd h (by simp)
    | arr xs => exact absurd h (by simp)

/-- C8. Normalization is idempotent: whenever `normalize(d, a)` succeeds
with output record `r` (and post-call fragments `a2`), applying the
transform to its own output with the same fragments yields the very same
output — round-trip stability of the lossy normalization. -/
theorem normalize_idempotent_spec (d : Dict) (a : Json) (r : Dict) (a2 : Json)
    (h : simplifyObjectLookup d a = some (r, a2)) :
    simplifyObjectLookup r a = some (r, a2) := by
  obtain ⟨xs, frags, oc2, hxs, hfrags, hoc2, hr, ha2⟩ :=
    simplifyObjectLookup_inv d a r a2 h
  have hcad : ("close_approach_data" : String) ≠ "links" := by decide
  have hed : ("estimated_diameter" : String) ≠ "links" := by decide
  rw [simplifyObjectLookup, hxs]
  simp only [Option.some_bind]
  rw [hfrags]
  simp only [Option.some_bind]
  have hrcad : dget r "close_approach_data"
      = some (Json.arr ((frags.map sanitiseApproach).map Json.obj)) := by
    rw [hr, dget_dpop_ne _ _ _ hcad,
      simplifyED_get_ne _ _ _ hoc2 (by decide)]
    exact dget_dset_self _ _ _
  rw [dset_eq_of_dget _ _ _ hrcad]
  have hsr : simplifyEstimatedDiameter r = some r := by
    rcases hek : edKilometers (dset d "close_approach_data"
        (Json.arr ((frags.map sanitiseApproach).map Json.obj))) with _ | km?
    · rw [simplifyED_eq_raise _ hek] at hoc2
      exact absurd hoc2 (by simp)
    · rcases km? with _ | km
      · rw [simplifyED_eq_pop _ hek] at hoc2
        injection hoc2 with hoc2
        have hred : dget r "estimated_diameter" = none := by
          rw [hr, dget_dpop_ne _ _ _ hed, hoc2.symm]
          exact dget_dpop_self _ _
        rw [simplifyED_eq_pop r (edKilometers_eq_of_absent r hred),
          dpop_eq_of_dget_none r _ hred]
      · have hknn := edKilometers_some_not_null _ km hek
        rw [simplifyED_eq_set _ km hek] at hoc2
        injection hoc2 with hoc2
        have hred : dget r "estimated_diameter"
            = some (Json.obj [("kilometers", km)]) := by
          rw [hr, dget_dpop_ne _ _ _ hed, hoc2.symm]
          exact dget_dset_self _ _ _
        have hekr : edKilometers r = some (some km) := by
          rw [edKilometers_eq_of_obj r _ hred]
          have hg : getPy [("kilometers", km)] "kilometers" = some km := by
            unfold getPy
            have hd1 : dget [("kilometers", km)] "kilometers" = some km := by
              simp [dget]
            rw [hd1]
            show (if km.isNull = true then none else some km) = some km
            rw [hknn]
            exact rfl
          rw [hg]
        rw [simplifyED_eq_set r km hekr,
          dset_eq_of_dget _ _ _ hred]
  rw [hsr]
  simp only [Option.some_bind]
  have hrl : dpop r "links" = r := by
    rw [hr]
    exact dpop_dpop_self _ _
  rw [hrl, ha2]

/-- C8 witness: for the detail (id "1") and one fragment with kilometers
and miles miss distances, re-normalizing the normalized record with the
same fragments reproduces it exactly. -/
theorem normalize_idempotent_spec_witness :
    simplifyObjectLookup
      [("id", Json.str "1"),
       ("close_approach_data", Json.arr [Json.obj [("miss_distance",
         Json.obj [("kilometers", Json.str "9")])]])]
      (Json.arr [Json.obj [("miss_distance",
        Json.obj [("kilometers", Json.str "9"), ("miles", Json.str "5")])]])
    = some ([("id", Json.str "1"),
        ("close_approach_data", Json.arr [Json.obj [("miss_distance",
          Json.obj [("kilometers", Json.str "9")])]])],
        Json.arr [Json.obj [("miss_distance",
          Json.obj [("kilometers", Json.str "9")])]]) :=
  normalize_idempotent_spec [("id", Json.str "1")]
    (Json.arr [Json.obj [("miss_distance",
      Json.obj [("kilometers", Json.str "9"), ("miles", Json.str "5")])]])
    _ _ rfl

theorem processOne_skip (lookup : String → Option Dict) (now : String)
    (db : List DBRow) (acc : Nat) (bad : Dict)
    (h : jsonTruthy (neoIdOf bad) = false ∨ lookup (pyStr (neoIdOf bad)) = none) :
    processOne lookup now db acc bad = some (db, acc) := by
  rcases h with h | h
  · simp [processOne, h]
  · by_cases ht : jsonTruthy (neoIdOf bad)
    · simp [processOne, ht, h]
    · simp [processOne, ht]

/-- C5. Within a page, a summary record lacking a usable (truthy)
identifier, or one whose detail lookup fails after retries, is skipped
without error: the per-record loop over the page produces exactly the
result it would produce on the same page with that record absent — every
other record is still normalized and inserted, and neither the page nor
the crawl is aborted. -/
theorem per_record_isolation_spec (lookup : String → Option Dict)
    (now : String) (xs ys : List Dict) (bad : Dict)
    (db : List DBRow) (acc : Nat)
    (h : jsonTruthy (neoIdOf bad) = false ∨ lookup (pyStr (neoIdOf bad)) = none) :
    processObjects lookup now (xs ++ bad :: ys) db acc
      = processObjects lookup now (xs ++ ys) db acc := by
  induction xs generalizing db acc with
  | nil =>
    simp only [List.nil_append, processObjects,
      processOne_skip lookup now db acc bad h]
  | cons x rest ih =>
    simp only [List.cons_append, processObjects]
    rcases hp : processOne lookup now db acc x with _ | p
    · rfl
    · obtain ⟨db2, acc2⟩ := p
      exact ih db2 acc2

/-- C5 witness: a page with 5 summary records r1..r5 where the detail
lookup fails exactly for r3 yields the same loop result as the page
without r3 — and that result is 4 successful inserts. -/
theorem per_record_isolation_spec_witness :
    processObjects
      (fun s => if s = "r3" then none else some [("id", Json.str s)]) "T"
      [[("neo_reference_id", Json.str "r1")], [("neo_reference_id", Json.str "r2")],
       [("neo_reference_id", Json.str "r3")], [("neo_reference_id", Json.str "r4")],
       [("neo_reference_id", Json.str "r5")]] [] 0
    = processObjects
      (fun s => if s = "r3" then none else some [("id", Json.str s)]) "T"
      [[("neo_reference_id", Json.str "r1")], [("neo_reference_id", Json.str "r2")],
       [("neo_reference_id", Json.str "r4")], [("neo_reference_id", Json.str "r5")]] [] 0
    ∧ (processObjects
      (fun s => if s = "r3" then none else some [("id", Json.str s)]) "T"
      [[("neo_reference_id", Json.str "r1")], [("neo_reference_id", Json.str "r2")],
       [("neo_reference_id", Json.str "r3")], [("neo_reference_id", Json.str "r4")],
       [("neo_reference_id", Json.str "r5")]] [] 0).map (fun p => p.2) = some 4 := by
  constructor
  · exact per_record_isolation_spec
      (fun s => if s = "r3" then none else some [("id", Json.str s)]) "T"
      [[("neo_reference_id", Json.str "r1")], [("neo_reference_id", Json.str "r2")]]
      [[("neo_reference_id", Json.str "r4")], [("neo_reference_id", Json.str "r5")]]
      [("neo_reference_id", Json.str "r3")] [] 0 (Or.inr rfl)
  · rfl

/-- C6 counterexample: when the provider reports `total_pages = 0` the
value IS known, and at the start page `n = 1` we have `n ≥ totalPages`, so
the claim says the crawl reaches Done at page 1 (fetch trace `[1, 1]`).
But `0` is falsy, so the stop test `total_pages and isinstance(...) and
page >= total_pages` of archive.py:233 never fires: the crawl goes on to
fetch page 2 (trace `[1, 1, 2]`) and only stops there via the zero-records
condition. -/
theorem totalPages_zero_not_done :
    runCrawl (fun p => if p = 1 then some ⟨some 0, [[("id", Json.str "a")]]⟩
        else some ⟨some 0, []⟩)
      (fun s => some [("id", Json.str s)]) "T" 1 9
    = ⟨[1, 1, 2], [(1, 1)],
       [⟨"a", Json.obj [("id", Json.str "a"), ("close_approach_data", Json.arr [])],
        "T"⟩],
       .noObjects 2⟩ := rfl

/-- C6 amended: a page fetch returning zero records terminates the crawl
loop in the Done (`noObjects`) state regardless of what `totalPages` is;
and when `totalPages` is known AND nonzero (a zero value is falsy and is
treated as unknown by the stop test), the loop reaches the Done
(`reachedTotalPages`) state as soon as the current page index `n`
satisfies `n ≥ totalPages`.  (`runCrawl` enters `crawlLoop` at the start
page after the metadata fetch.) -/
theorem stop_condition_spec (browse : Int → Option BrowsePage)
    (lookup : String → Option Dict) (now : String)
    (t : Int) (fuel : Nat) (page : Int) (db : List DBRow) (resp : BrowsePage)
    (hb : browse page = some resp) (hf : 1 ≤ fuel) :
    (resp.objects = [] →
      crawlLoop browse lookup now t fuel page db
        = ⟨[page], [], db, .noObjects page⟩)
    ∧ (∀ db2 n, resp.objects ≠ [] →
        processObjects lookup now resp.objects db 0 = some (db2, n) →
        t ≠ 0 → page ≥ t →
        crawlLoop browse lookup now t fuel page db
          = ⟨[page], [(page, n)], db2, .reachedTotalPages page⟩) := by
  obtain ⟨f, rfl⟩ : ∃ f, fuel = f + 1 := ⟨fuel - 1, by omega⟩
  constructor
  · intro hempty
    have he : resp.objects.isEmpty = true := by
      rw [hempty]
      rfl
    simp [crawlLoop, hb, he]
  · intro db2 n hne hproc ht hge
    have he : resp.objects.isEmpty = false := by
      simp [List.isEmpty_eq_false, hne]
    simp only [crawlLoop, hb, he, Bool.false_eq_true, if_false, hproc]
    rw [if_pos ⟨ht, hge⟩]

/-- C6 witness: a page-5 fetch with zero records ends the loop in
`noObjects 5` even though totalPages is known (9); and with totalPages 7
known and nonzero, the loop at page 7 (≥ 7, one record, one insert) ends in
`reachedTotalPages 7`. -/
theorem stop_condition_spec_witness :
    crawlLoop (fun _ => some ⟨some 9, []⟩)
        (fun s => some [("id", Json.str s)]) "T" 9 3 5 []
      = ⟨[5], [], [], .noObjects 5⟩
    ∧ crawlLoop (fun _ => some ⟨some 7, [[("id", Json.str "z")]]⟩)
        (fun s => some [("id", Json.str s)]) "T" 7 4 7 []
      = ⟨[7], [(7, 1)],
         [⟨"z", Json.obj [("id", Json.str "z"), ("close_approach_data", Json.arr [])],
          "T"⟩],
         .reachedTotalPages 7⟩ := by
  constructor
  · exact (stop_condition_spec (fun _ => some ⟨some 9, []⟩)
      (fun s => some [("id", Json.str s)]) "T" 9 3 5 [] ⟨some 9, []⟩
      rfl (by norm_num)).1 rfl
  · exact (stop_condition_spec (fun _ => some ⟨some 7, [[("id", Json.str "z")]]⟩)
      (fun s => some [("id", Json.str s)]) "T" 7 4 7 []
      ⟨some 7, [[("id", Json.str "z")]]⟩ rfl (by norm_num)).2
      [⟨"z", Json.obj [("id", Json.str "z"), ("close_approach_data", Json.arr [])],
        "T"⟩] 1 (by simp) rfl (by norm_num) (by norm_num)

theorem crawlLoop_fetched_lb (browse : Int → Option BrowsePage)
    (lookup : String → Option Dict) (now : String) (t : Int) (fuel : Nat) :
    ∀ (page q : Int) (db : List DBRow),
      q ∈ (crawlLoop browse lookup now t fuel page db).fetched → page ≤ q := by
  induction fuel with
  | zero =>
    intro page q db hq
    simp [crawlLoop] at hq
  | succ f ih =>
    intro page q db hq
    rw [crawlLoop] at hq
    split at hq
    · simp at hq
      omega
    · split at hq
      · simp at hq
        omega
      · split at hq
        · simp at hq
          omega
        · split at hq
          · simp at hq
            omega
          · simp only [List.mem_cons] at hq
            rcases hq with hq | hq
            · omega
            · have := ih (page + 1) q _ hq
              omega

theorem crawlLoop_counts_lb (browse : Int → Option BrowsePage)
    (lookup : String → Option Dict) (now : String) (t : Int) (fuel : Nat) :
    ∀ (page q : Int) (n : Nat) (db : List DBRow),
      (q, n) ∈ (crawlLoop browse lookup now t fuel page db).counts → page ≤ q := by
  induction fuel with
  | zero =>
    intro page q n db hq
    simp [crawlLoop] at hq
  | succ f ih =>
    intro page q n db hq
    rw [crawlLoop] at hq
    split at hq
    · simp at hq
    · split at hq
      · simp at hq
      · split at hq
        · simp at hq
        · split at hq
          · simp at hq
            omega
          · simp only [List.mem_cons] at hq
            rcases hq with hq | hq
            · have : q = page := by
                rw [Prod.mk.injEq] at hq
                exact hq.1
              omega
            · have := ih (page + 1) q n _ hq
              omega

/-- C10. In every run whose first metadata fetch succeeds, the configured
start page is requested over HTTP exactly twice — once before the loop
solely to read the totalPages metadata, and a second time as the first
loop iteration — while the start page's records are processed at most
once, and exactly once when the page has records and its per-record loop
completes (one progress count is reported for it). -/
theorem first_page_double_fetch_spec (browse : Int → Option BrowsePage)
    (lookup : String → Option Dict) (now : String) (startPage : Int)
    (fuel : Nat) (first : BrowsePage)
    (hb : browse startPage = some first) (hf : 1 ≤ fuel) :
    (runCrawl browse lookup now startPage fuel).fetched.count startPage = 2
    ∧ ((runCrawl browse lookup now startPage fuel).counts.map
        Prod.fst).count startPage ≤ 1
    ∧ (first.objects ≠ [] →
        ∀ p, processObjects lookup now first.objects [] 0 = some p →
        ((runCrawl browse lookup now startPage fuel).counts.map
          Prod.fst).count startPage = 1) := by
  obtain ⟨f, rfl⟩ : ∃ f, fuel = f + 1 := ⟨fuel - 1, by omega⟩
  simp only [runCrawl, hb]
  simp only [crawlLoop, hb]
  by_cases he : first.objects.isEmpty
  · simp only [he, if_true]
    refine ⟨by simp, by simp, ?_⟩
    intro hne p hp
    rw [List.isEmpty_eq_true] at he
    exact absurd he hne
  · simp only [he, Bool.false_eq_true, if_false]
    rcases hp : processObjects lookup now first.objects [] 0 with _ | p
    · simp only [hp]
      refine ⟨by simp, by simp, ?_⟩
      intro hne p2 hp2
      exact absurd hp2 (by simp)
    · obtain ⟨db2, n⟩ := p
      simp only [hp]
      by_cases hc : (first.totalPages.getD startPage) ≠ 0
          ∧ startPage ≥ (first.totalPages.getD startPage)
      · rw [if_pos hc]
        refine ⟨by simp, by simp, fun _ _ _ => by simp⟩
      · rw [if_neg hc]
        have hnofetch : (crawlLoop browse lookup now
            (first.totalPages.getD startPage) f (startPage + 1) db2).fetched.count
            startPage = 0 := by
          rw [List.count_eq_zero]
          intro hmem
          have := crawlLoop_fetched_lb browse lookup now
            (first.totalPages.getD startPage) f (startPage + 1) startPage db2 hmem
          omega
        have hnocount : ((crawlLoop browse lookup now
            (first.totalPages.getD startPage) f (startPage + 1) db2).counts.map
            Prod.fst).count startPage = 0 := by
          rw [List.count_eq_zero]
          intro hmem
          rw [List.mem_map] at hmem
          obtain ⟨⟨q, m⟩, hqm, hq⟩ := hmem
          have := crawlLoop_counts_lb browse lookup now
            (first.totalPages.getD startPage) f (startPage + 1) q m db2 hqm
          simp at hq
          omega
        refine ⟨?_, ?_, fun _ _ _ => ?_⟩
        · simp [List.count_cons, hnofetch]
        · simp [List.count_cons, hnocount]
        · simp [List.count_cons, hnocount]

/-- C10 witness: with a single-record page reporting totalPages 1, a run
from start page 1 issues the HTTP request for page 1 twice but reports
exactly one progress count for page 1. -/
theorem first_page_double_fetch_spec_witness :
    (runCrawl (fun _ => some ⟨some 1, [[("id", Json.str "w")]]⟩)
        (fun s => some [("id", Json.str s)]) "T" 1 3).fetched.count 1 = 2
    ∧ ((runCrawl (fun _ => some ⟨some 1, [[("id", Json.str "w")]]⟩)
        (fun s => some [("id", Json.str s)]) "T" 1 3).counts.map
        Prod.fst).count 1 = 1 := by
  have h := first_page_double_fetch_spec
    (fun _ => some ⟨some 1, [[("id", Json.str "w")]]⟩)
    (fun s => some [("id", Json.str s)]) "T" 1 3
    ⟨some 1, [[("id", Json.str "w")]]⟩ rfl (by norm_num)
  exact ⟨h.1, h.2.2 (by simp)
    ([⟨"w", Json.obj [("id", Json.str "w"), ("close_approach_data", Json.arr [])],
      "T"⟩], 1) rfl⟩

/-- C3.  When the first page's metadata omits totalPages, the fallback of
archive.py:192-194 sets `total_pages = page` — the START page — although
its own comment says "fallback: try to continue until no objects
returned".  For any start page ≥ 1 the stop test `page >= total_pages`
then fires at the end of the very first iteration: here the provider
omits totalPages and EVERY page has one record, yet the crawl from start
page 1 requests only pages [1, 1], processes the single page, and stops in
the `reachedTotalPages` state — it never advances to page 2 and the
zero-records stop condition is never consulted, contradicting the claim
(and the code's own comment). -/
theorem run_fallback_totalPages_bug :
    runCrawl (fun _ => some ⟨none, [[("neo_reference_id", Json.str "n1")]]⟩)
      (fun s => some [("id", Json.str s)]) "T" 1 5
    = ⟨[1, 1], [(1, 1)],
       [⟨"n1", Json.obj [("id", Json.str "n1"), ("close_approach_data", Json.arr [])],
        "T"⟩],
       .reachedTotalPages 1⟩ := rfl

end Archive
